import Mathlib

/-!
Verification of the layout solver and entrance-animation driver of the
NeuroViz reasoning-graph visualizer (`VisualizedGraph` in
`src/components/ReasoningOverlay.tsx`).

Modelling conventions:
* JavaScript numbers are modelled by `FVal`: either a finite rational or one
  of the non-finite values `nan`, `inf`, `ninf`.  Wherever the source code has
  already guarded a value to be finite (`Number.isFinite` fallback), the model
  continues with plain rationals `ℚ`.
* The d3 force simulation (`d3.forceSimulation` and its forces) is external
  library code.  It is abstracted as a `SimOutcome`: a function giving the
  final 2D coordinates of the node at each ordinal after the tick loop, plus
  a flag recording whether an exception escaped the tick loop into the
  solver's `catch` block.  d3 mutates the node copies in place; on an
  exception the coordinates are simply whatever state was reached, which the
  arbitrary `coords` function covers.  d3's `forceSimulation` assigns
  `node.index = i` (the array ordinal) to every node when the simulation is
  constructed, before any force can fail, so the ordinal used for the z lift
  is the position in the `d3Nodes` array.
* The JavaScript `Map` keyed by node id is modelled as an association list
  with JavaScript `Map.set` semantics: an existing key keeps its place and
  gets the new value, a new key is appended.
* `Math.random()` is modelled as a stream `r : Nat → ℚ` of draws, consumed
  in call order: node `i`'s seed consumes draws `2*i` (for x) and `2*i+1`
  (for y).
-/

/-- A JavaScript number: finite rational, NaN, or a signed infinity. -/
inductive FVal where
  | fin : ℚ → FVal
  | nan : FVal
  | inf : FVal
  | ninf : FVal
deriving DecidableEq, Repr

/-- `Number.isFinite`. -/
def FVal.isFinite : FVal → Bool
  | .fin _ => true
  | _ => false

/-- The value of `Number.isFinite(v) ? v : 0`, the solver's fallback for a
non-finite simulated coordinate (ReasoningOverlay.tsx lines 320-321). -/
def FVal.orZero : FVal → ℚ
  | .fin q => q
  | _ => 0

/-- `Math.max(lo, Math.min(hi, x))` on finite numbers. -/
def clamp (lo hi x : ℚ) : ℚ := max lo (min hi x)

/-- A 3D position as emitted by the solver (all coordinates are finite by
construction, hence plain rationals). -/
structure Point3D where
  x : ℚ
  y : ℚ
  z : ℚ
deriving DecidableEq, Repr

/-! ## Input data model (`src/types.ts`) -/

/-- A stage (`Stage` in types.ts); only the fields the layout reads. -/
structure Stage where
  id : String
  label : String
deriving DecidableEq, Repr

/-- A node (`Node` in types.ts); only the fields the layout reads.  The
`importance` and type tag fields are not read by the layout solver and are
omitted. -/
structure GNode where
  id : String
  label : String
  stage_id : String
deriving DecidableEq, Repr

/-- An edge (`Edge` in types.ts). -/
structure GEdge where
  source : String
  target : String
  strength : FVal
deriving DecidableEq, Repr

/-- The graph snapshot handed to the solver (`ExplainTrace` fields read by
`VisualizedGraph`).  Each array field is an `Option` to model a missing /
non-array value, which the solver guards against (`Array.isArray(data.nodes)`,
`Array.isArray(data.edges) ? data.edges : []`, `data.stages || []`). -/
structure ExplainTrace where
  stages : Option (List Stage)
  nodes : Option (List GNode)
  edges : Option (List GEdge)
deriving DecidableEq, Repr

/-- `Array.isArray(data.edges) ? data.edges : []` (line 257). -/
def edgesOf (g : ExplainTrace) : List GEdge := g.edges.getD []

/-- `data.stages || []` (line 258). -/
def stagesOf (g : ExplainTrace) : List Stage := g.stages.getD []

/-! ## The id-keyed `Map` (JavaScript `Map` semantics) -/

/-- The `nodePositions` map: association list in insertion order. -/
abbrev PosMap := List (String × Point3D)

/-- JavaScript `Map.prototype.set`: an existing key (a `Map` never holds a
key twice) keeps its position and receives the new value; a fresh key is
appended in insertion order. -/
def mapSet : PosMap → String → Point3D → PosMap
  | [], k, v => [(k, v)]
  | p :: rest, k, v => if p.1 = k then (k, v) :: rest else p :: mapSet rest k v

/-- JavaScript `Map.prototype.get` (keys are unique, so the first match is
the entry). -/
def mapGet (m : PosMap) (k : String) : Option Point3D :=
  (m.find? (fun p => p.1 = k)).map (fun p => p.2)

/-! ## Seeding and the abstracted simulation -/

/-- The d3 working copy of a node (`d3Nodes` element, lines 265-269): a
shallow copy of the input node together with mutable 2D coordinates. -/
structure SimNode where
  id : String
  stage_id : String
  x : FVal
  y : FVal
deriving DecidableEq, Repr

/-- Seeding (lines 265-269): node `i` is copied and given
`x = Math.random()*10 - 5`, `y = Math.random()*10 - 5`, consuming the random
stream in call order.  `k` is the ordinal of the first node of the list. -/
def seedNodesAux (r : Nat → ℚ) : Nat → List GNode → List SimNode
  | _, [] => []
  | k, n :: rest =>
      { id := n.id, stage_id := n.stage_id,
        x := .fin (r (2 * k) * 10 - 5), y := .fin (r (2 * k + 1) * 10 - 5) }
        :: seedNodesAux r (k + 1) rest

/-- Seeding of the whole node list. -/
def seedNodes (r : Nat → ℚ) (ns : List GNode) : List SimNode :=
  seedNodesAux r 0 ns

/-- Abstraction of the d3 force simulation run (lines 291-311): `coords i`
is the final 2D state of the node at ordinal `i` after the tick loop, and
`threw` records whether an internal exception escaped to the solver's
`catch` block.  The `catch` only logs a warning, so `threw` influences
nothing downstream; on a throw `coords` is whatever node state was reached. -/
structure SimOutcome where
  threw : Bool
  coords : Nat → FVal × FVal

/-- Overwrite the coordinates of the node at each ordinal with the simulation
outcome (d3 mutates `d3Nodes` in place during the tick loop). -/
def applySimAux (c : Nat → FVal × FVal) : Nat → List SimNode → List SimNode
  | _, [] => []
  | k, sn :: rest =>
      { sn with x := (c k).1, y := (c k).2 } :: applySimAux c (k + 1) rest

/-- The node list after the simulation (or after the caught failure). -/
def applySim (σ : SimOutcome) (l : List SimNode) : List SimNode :=
  applySimAux σ.coords 0 l

/-! ## Emission (lines 313-333) -/

/-- One emitted x or y coordinate: non-finite simulation output falls back to
0, then the value is clamped to [-50, 50] (lines 320-325). -/
def emitXY (v : FVal) : ℚ := clamp (-50) 50 v.orZero

/-- `pseudoRandomZ` (line 329): `((indexVal * 1337) % 100) / 100 - 0.5`,
where `indexVal` is the node's simulation ordinal (a natural number, so the
JavaScript `%` is natural remainder and the result is always finite, making
the code's `Number.isFinite(pseudoRandomZ)` guard pass). -/
def pseudoRandomZ (i : Nat) : ℚ := ((i * 1337) % 100 : Nat) / 100 - 1 / 2

/-- The emitted z coordinate: `pseudoRandomZ * zSpread` with `zSpread = 1.5`
(lines 316, 330). -/
def emitZ (i : Nat) : ℚ := pseudoRandomZ i * (3 / 2)

/-- The emitted position of the simulated node at ordinal `i`. -/
def emitPoint (sn : SimNode) (i : Nat) : Point3D :=
  { x := emitXY sn.x, y := emitXY sn.y, z := emitZ i }

/-- The `d3Nodes.forEach` loop (lines 318-333): set each node's emitted
position into the id-keyed map, in array order. -/
def buildPositions : PosMap → Nat → List SimNode → PosMap
  | m, _, [] => m
  | m, k, sn :: rest => buildPositions (mapSet m sn.id (emitPoint sn k)) (k + 1) rest

/-- `computeLayout` (the `layout` memo of `VisualizedGraph`, lines 250-336):
empty mapping when the node list is missing or empty; otherwise seed copies
of the nodes, run the (abstracted) simulation, and emit a guarded, clamped
position per node into the id-keyed map. -/
def computeLayout (g : ExplainTrace) (σ : SimOutcome) (r : Nat → ℚ) : PosMap :=
  match g.nodes with
  | none => []
  | some ns =>
      if ns.isEmpty then []
      else buildPositions [] 0 (applySim σ (seedNodes r ns))

/-! ## Lane targets (lines 277-289)

The simulation's `forceX` pulls each node toward `stageX[d.stage_id] || 0`.
The `stageX` record itself is built from the stage list alone. -/

/-- `stageWidth` (line 277). -/
def stageWidth : ℚ := 6

/-- The target x of the stage at index `i` of `n` stages (lines 285-288):
`t = index / (stageCount - 1 || 1)` and `-stageWidth/2 + t * stageWidth`.
JavaScript `||` makes the denominator 1 exactly when `n - 1` is 0. -/
def laneTarget (n i : Nat) : ℚ :=
  -stageWidth / 2 + ((i : ℚ) / (if n - 1 = 0 then 1 else ((n - 1 : Nat) : ℚ))) * stageWidth

/-- The `stageX` record: one assignment per stage, in stage-list order
(later assignments to a duplicated id overwrite earlier ones, as in a
JavaScript object). -/
def stageXAssign (n : Nat) : Nat → List Stage → List (String × ℚ)
  | _, [] => []
  | i, s :: rest => (s.id, laneTarget n i) :: stageXAssign n (i + 1) rest

/-- `stageX[sid] || 0` (line 297): the last assignment for `sid` if any
(JavaScript object semantics), with 0 both for a missing id and for a falsy
stored 0. -/
def stageXOf (stages : List Stage) (sid : String) : ℚ :=
  match (stageXAssign stages.length 0 stages).reverse.find? (fun p => p.1 = sid) with
  | some p => p.2
  | none => 0

/-! ## Edge filtering and the renderable edge set -/

/-- A d3 link (`d3Links` element, line 273). -/
structure D3Link where
  source : String
  target : String
  strength : FVal
deriving DecidableEq, Repr

/-- The id set of the input nodes (line 261). -/
def nodeIdsOf (ns : List GNode) : List String := ns.map GNode.id

/-- `d3Links` (lines 271-273): edges are kept only when both endpoint ids
are in the node id set, then projected to `{source, target, strength}`. -/
def d3Links (ns : List GNode) (es : List GEdge) : List D3Link :=
  (es.filter (fun e =>
      (nodeIdsOf ns).contains e.source && (nodeIdsOf ns).contains e.target)).map
    (fun e => { source := e.source, target := e.target, strength := e.strength })

/-- Squared 3D distance.  The source's `distance3D` (lines 103-105) takes a
square root; the renderability threshold `distance3D < 0.01` is equivalently
`distSq < 0.0001` since both sides are nonnegative, keeping the model in ℚ. -/
def distSq (p q : Point3D) : ℚ :=
  (q.x - p.x) ^ 2 + (q.y - p.y) ^ 2 + (q.z - p.z) ^ 2

/-- The renderable edge set (lines 344-374): an edge is rendered only when
both endpoints resolve in the layout map, all six coordinates are finite
(always true of emitted positions, whose coordinates are rationals by
construction), and the endpoint distance is at least 0.01. -/
def renderableEdges (es : List GEdge) (m : PosMap) : List GEdge :=
  es.filter (fun e =>
    match mapGet m e.source, mapGet m e.target with
    | some s, some t => decide ((1 / 10000 : ℚ) ≤ distSq s t)
    | _, _ => false)

/-! ## Entrance animation (lines 232-247) -/

/-- d3's `easeCubicOut`: `((t = t - 1) * t * t + 1)`, i.e. `(t-1)^3 + 1`. -/
def easeCubicOut (t : ℚ) : ℚ := (t - 1) ^ 3 + 1

/-- The raw ratio `Math.min((timestamp - start) / 1500, 1)` (line 238). -/
def rawProgress (s now : ℚ) : ℚ := min ((now - s) / 1500) 1

/-- The emitted animation progress (line 239):
`d3.easeCubicOut(rawProgress)`. -/
def emittedProgress (s now : ℚ) : ℚ := easeCubicOut (rawProgress s now)

/-- Whether the tick schedules another frame (line 241): `progress < 1`
where `progress` is the raw ratio. -/
def schedulesNext (s now : ℚ) : Bool := rawProgress s now < 1

/-! ## Stateful view of the solver

JavaScript mutation is modelled by explicit state passing.  The mutable
locations touched during a layout call are the `d3Nodes` copies and the
`d3Links` projections (mutated by d3) and the freshly allocated result map;
the input graph object is only read.  `runLayout` threads the whole state
through the call so that the frame condition on the input is a theorem. -/

/-- The state visible to one layout call: the input graph object plus d3's
working storage. -/
structure SolverWorld where
  graph : ExplainTrace
  simNodes : List SimNode
  simLinks : List D3Link
deriving Repr

/-- One layout call over the full state.  The seeding step (lines 265-269)
installs shallow copies of the input nodes as the simulation's working list,
the link step (lines 271-273) installs fresh link records, the simulation
step mutates only the working list, and the emission step (lines 313-333)
allocates a fresh map of fresh `Point3D` values. -/
def runLayout (w : SolverWorld) (σ : SimOutcome) (r : Nat → ℚ) :
    SolverWorld × PosMap :=
  match w.graph.nodes with
  | none => (w, [])
  | some ns =>
      if ns.isEmpty then (w, [])
      else
        let w1 : SolverWorld :=
          { w with simNodes := seedNodes r ns,
                   simLinks := d3Links ns (edgesOf w.graph) }
        let w2 : SolverWorld := { w1 with simNodes := applySim σ w1.simNodes }
        (w2, buildPositions [] 0 w2.simNodes)

/-! ## Concrete inputs used by witnesses and counterexamples -/

/-- A two-node, one-stage graph with one intact edge and one dangling edge. -/
def gEx : ExplainTrace :=
  { stages := some [{ id := "s1", label := "A" }],
    nodes := some [{ id := "a", label := "a", stage_id := "s1" },
                   { id := "b", label := "b", stage_id := "s1" }],
    edges := some [{ source := "a", target := "b", strength := .fin 1 },
                   { source := "a", target := "zzz", strength := .fin 1 }] }

/-- A graph whose node list holds two nodes with the same id. -/
def gDup : ExplainTrace :=
  { stages := some [],
    nodes := some [{ id := "a", label := "first", stage_id := "s1" },
                   { id := "b", label := "mid", stage_id := "s1" },
                   { id := "a", label := "last", stage_id := "s1" }],
    edges := some [] }

/-- A graph with a missing (non-array) node list. -/
def gNoNodes : ExplainTrace := { stages := none, nodes := none, edges := none }

/-- A simulation outcome that throws and leaves non-finite coordinates. -/
def simThrow : SimOutcome := { threw := true, coords := fun _ => (.nan, .inf) }

/-- A normal simulation outcome with index-dependent finite coordinates. -/
def simOk : SimOutcome := { threw := false, coords := fun i => (.fin i, .fin 1) }

/-- A simulation outcome that leaves coordinates far outside the clamp
range. -/
def simBig : SimOutcome := { threw := false, coords := fun _ => (.fin 1000, .fin (-777)) }

/-- The all-zero random stream: every `Math.random()` call returns 0. -/
def rZero : Nat → ℚ := fun _ => 0

/-- A random stream with pairwise distinct draws. -/
def rDistinct : Nat → ℚ := fun i => (i : ℚ) / 100

/-! ## Lemmas about the id-keyed map -/

theorem mapGet_nil (k : String) : mapGet [] k = none := rfl

theorem mapGet_cons (p : String × Point3D) (rest : PosMap) (k : String) :
    mapGet (p :: rest) k = if p.1 = k then some p.2 else mapGet rest k := by
  by_cases h : p.1 = k <;> simp [mapGet, List.find?_cons, h]

theorem mapGet_mapSet (m : PosMap) (k k' : String) (v : Point3D) :
    mapGet (mapSet m k v) k' = if k' = k then some v else mapGet m k' := by
  induction m with
  | nil =>
      simp only [mapSet, mapGet_cons, mapGet_nil]
      by_cases h : k' = k
      · simp [h]
      · have h2 : ¬ k = k' := fun h3 => h h3.symm
        simp [h, h2]
  | cons p rest ih =>
      rw [mapSet]
      by_cases hp : p.1 = k
      · rw [if_pos hp]
        simp only [mapGet_cons]
        by_cases h : k' = k
        · simp [h]
        · have h2 : ¬ k = k' := fun h3 => h h3.symm
          have h4 : ¬ p.1 = k' := fun h3 => h2 (hp.symm.trans h3)
          simp [h, h2, h4]
      · rw [if_neg hp]
        simp only [mapGet_cons, ih]
        by_cases hpk : p.1 = k'
        · have h : ¬ k' = k := fun h3 => hp (hpk.trans h3)
          simp [hpk, h]
        · simp [hpk]

theorem mapGet_mapSet_self (m : PosMap) (k : String) (v : Point3D) :
    mapGet (mapSet m k v) k = some v := by
  rw [mapGet_mapSet, if_pos rfl]

theorem mapGet_mapSet_ne (m : PosMap) {k k' : String} (v : Point3D) (h : k' ≠ k) :
    mapGet (mapSet m k v) k' = mapGet m k' := by
  rw [mapGet_mapSet, if_neg h]

theorem keys_mapSet (m : PosMap) (k : String) (v : Point3D) :
    (mapSet m k v).map Prod.fst =
      if k ∈ m.map Prod.fst then m.map Prod.fst else m.map Prod.fst ++ [k] := by
  induction m with
  | nil => simp [mapSet]
  | cons p rest ih =>
      by_cases hp : p.1 = k
      · simp [mapSet, hp]
      · simp only [mapSet, if_neg hp, List.map_cons, ih, List.mem_cons]
        by_cases h : k ∈ rest.map Prod.fst
        · simp [h]
        · have hkp : ¬ k = p.1 := fun h2 => hp h2.symm
          simp [h, hkp]

theorem nodupKeys_mapSet (m : PosMap) (k : String) (v : Point3D)
    (h : (m.map Prod.fst).Nodup) : ((mapSet m k v).map Prod.fst).Nodup := by
  rw [keys_mapSet]
  by_cases hk : k ∈ m.map Prod.fst
  · simpa [hk] using h
  · simpa [hk, List.nodup_append] using h

theorem mem_mapSet {q : String × Point3D} {k : String} {v : Point3D} :
    ∀ {m : PosMap}, q ∈ mapSet m k v → q ∈ m ∨ q = (k, v) := by
  intro m
  induction m with
  | nil =>
      intro h
      rw [mapSet, List.mem_singleton] at h
      exact Or.inr h
  | cons p rest ih =>
      intro h
      rw [mapSet] at h
      by_cases hp : p.1 = k
      · rw [if_pos hp, List.mem_cons] at h
        rcases h with h | h
        · exact Or.inr h
        · exact Or.inl (List.mem_cons_of_mem _ h)
      · rw [if_neg hp, List.mem_cons] at h
        rcases h with h | h
        · exact Or.inl (by rw [h]; exact List.mem_cons_self _ _)
        · rcases ih h with h2 | h2
          · exact Or.inl (List.mem_cons_of_mem _ h2)
          · exact Or.inr h2

theorem mapGet_some_mem {m : PosMap} {k : String} {p : Point3D}
    (h : mapGet m k = some p) : (k, p) ∈ m := by
  unfold mapGet at h
  rcases Option.map_eq_some'.1 h with ⟨pr, hfind, hsnd⟩
  have hmem := List.mem_of_find?_eq_some hfind
  have hfst : pr.1 = k := by
    have := List.find?_some hfind
    simpa using this
  have : (k, p) = pr := by
    cases pr
    simp only at hfst hsnd
    rw [hfst, hsnd]
  rw [this]
  exact hmem

/-! ## Lemmas about `buildPositions` -/

theorem mem_buildPositions {q : String × Point3D} :
    ∀ (l : List SimNode) (m : PosMap) (i : Nat), q ∈ buildPositions m i l →
      q ∈ m ∨ ∃ j sn, l[j]? = some sn ∧ q = (sn.id, emitPoint sn (i + j)) := by
  intro l
  induction l with
  | nil => intro m i h; exact Or.inl h
  | cons sn rest ih =>
      intro m i h
      rw [buildPositions] at h
      rcases ih _ _ h with h2 | ⟨j, sn2, hj, hq⟩
      · rcases mem_mapSet h2 with h3 | h3
        · exact Or.inl h3
        · exact Or.inr ⟨0, sn, by simp, by rw [h3, Nat.add_zero]⟩
      · refine Or.inr ⟨j + 1, sn2, by simpa using hj, ?_⟩
        rw [hq]
        have : i + 1 + j = i + (j + 1) := by omega
        rw [this]

theorem mapGet_buildPositions_of_ne {k : String} :
    ∀ (l : List SimNode) (m : PosMap) (i : Nat), (∀ sn ∈ l, sn.id ≠ k) →
      mapGet (buildPositions m i l) k = mapGet m k := by
  intro l
  induction l with
  | nil => intro m i _; rfl
  | cons sn rest ih =>
      intro m i h
      rw [buildPositions, ih _ _ (fun s hs => h s (List.mem_cons_of_mem _ hs)),
        mapGet_mapSet_ne]
      exact fun h2 => h sn (List.mem_cons_self _ _) h2.symm

theorem mapGet_buildPositions_isSome {k : String} :
    ∀ (l : List SimNode) (m : PosMap) (i : Nat),
      ((mapGet m k).isSome = true ∨ k ∈ l.map SimNode.id) →
      (mapGet (buildPositions m i l) k).isSome = true := by
  intro l
  induction l with
  | nil =>
      intro m i h
      rcases h with h | h
      · exact h
      · simp at h
  | cons sn rest ih =>
      intro m i h
      rw [buildPositions]
      rcases h with h | h
      · refine ih _ _ (Or.inl ?_)
        by_cases hk : k = sn.id
        · rw [hk, mapGet_mapSet_self]; rfl
        · rw [mapGet_mapSet_ne _ _ hk]; exact h
      · rw [List.map_cons, List.mem_cons] at h
        by_cases hk : k = sn.id
        · refine ih _ _ (Or.inl ?_)
          rw [hk, mapGet_mapSet_self]; rfl
        · rcases h with h | h
          · exact absurd h hk
          · exact ih _ _ (Or.inr h)

theorem nodupKeys_buildPositions :
    ∀ (l : List SimNode) (m : PosMap) (i : Nat), (m.map Prod.fst).Nodup →
      ((buildPositions m i l).map Prod.fst).Nodup := by
  intro l
  induction l with
  | nil => intro m i h; exact h
  | cons sn rest ih =>
      intro m i h
      rw [buildPositions]
      exact ih _ _ (nodupKeys_mapSet _ _ _ h)

theorem mapGet_buildPositions_last {k : String} :
    ∀ (l : List SimNode) (m : PosMap) (i j : Nat) (sn : SimNode),
      l[j]? = some sn → sn.id = k →
      (∀ j' sn', j < j' → l[j']? = some sn' → sn'.id ≠ k) →
      mapGet (buildPositions m i l) k = some (emitPoint sn (i + j)) := by
  intro l
  induction l with
  | nil => intro m i j sn hj; simp at hj
  | cons sn0 rest ih =>
      intro m i j sn hj hk hlast
      rw [buildPositions]
      cases j with
      | zero =>
          rw [List.getElem?_cons_zero, Option.some_inj] at hj
          have hrest : ∀ s ∈ rest, s.id ≠ k := by
            intro s hs
            rcases List.mem_iff_getElem?.1 hs with ⟨j2, hj2⟩
            exact hlast (j2 + 1) s (by omega) (by simpa using hj2)
          rw [mapGet_buildPositions_of_ne _ _ _ hrest, hj, hk,
            mapGet_mapSet_self, Nat.add_zero]
      | succ j2 =>
          rw [List.getElem?_cons_succ] at hj
          have hlast2 : ∀ j' sn', j2 < j' → rest[j']? = some sn' → sn'.id ≠ k := by
            intro j' sn' hlt hg
            exact hlast (j' + 1) sn' (by omega) (by simpa using hg)
          have := ih (mapSet m sn0.id (emitPoint sn0 i)) (i + 1) j2 sn hj hk hlast2
          rw [this]
          have h2 : i + 1 + j2 = i + (j2 + 1) := by omega
          rw [h2]

/-! ## Lemmas about seeding and the simulated node list -/

theorem seedNodesAux_getElem (r : Nat → ℚ) :
    ∀ (ns : List GNode) (k j : Nat),
      (seedNodesAux r k ns)[j]? = (ns[j]?).map (fun n =>
        ({ id := n.id, stage_id := n.stage_id,
           x := .fin (r (2 * (k + j)) * 10 - 5),
           y := .fin (r (2 * (k + j) + 1) * 10 - 5) } : SimNode)) := by
  intro ns
  induction ns with
  | nil => intro k j; simp [seedNodesAux]
  | cons n rest ih =>
      intro k j
      cases j with
      | zero => simp [seedNodesAux]
      | succ j2 =>
          rw [seedNodesAux]
          simp only [List.getElem?_cons_succ]
          rw [ih (k + 1) j2]
          have h : k + 1 + j2 = k + (j2 + 1) := by omega
          rw [h]

theorem applySimAux_getElem (c : Nat → FVal × FVal) :
    ∀ (l : List SimNode) (k j : Nat),
      (applySimAux c k l)[j]? = (l[j]?).map (fun sn =>
        { sn with x := (c (k + j)).1, y := (c (k + j)).2 }) := by
  intro l
  induction l with
  | nil => intro k j; simp [applySimAux]
  | cons sn rest ih =>
      intro k j
      cases j with
      | zero => simp [applySimAux]
      | succ j2 =>
          rw [applySimAux]
          simp only [List.getElem?_cons_succ]
          rw [ih (k + 1) j2]
          have h : k + 1 + j2 = k + (j2 + 1) := by omega
          rw [h]

/-- The simulated node at ordinal `j` is the shallow copy of the input node
at ordinal `j` with the outcome's coordinates. -/
theorem simList_getElem (σ : SimOutcome) (r : Nat → ℚ) (ns : List GNode) (j : Nat) :
    (applySim σ (seedNodes r ns))[j]? = (ns[j]?).map (fun n =>
      ({ id := n.id, stage_id := n.stage_id,
         x := (σ.coords j).1, y := (σ.coords j).2 } : SimNode)) := by
  rw [applySim, seedNodes, applySimAux_getElem, seedNodesAux_getElem]
  cases ns[j]? <;> simp

theorem seedNodesAux_ids (r : Nat → ℚ) :
    ∀ (ns : List GNode) (k : Nat),
      (seedNodesAux r k ns).map SimNode.id = ns.map GNode.id := by
  intro ns
  induction ns with
  | nil => intro k; rfl
  | cons n rest ih => intro k; simp [seedNodesAux, ih]

theorem applySimAux_ids (c : Nat → FVal × FVal) :
    ∀ (l : List SimNode) (k : Nat),
      (applySimAux c k l).map SimNode.id = l.map SimNode.id := by
  intro l
  induction l with
  | nil => intro k; rfl
  | cons sn rest ih => intro k; simp [applySimAux, ih]

/-- The simulation changes only coordinates: the id sequence of the working
list is exactly the id sequence of the input nodes. -/
theorem simList_ids (σ : SimOutcome) (r : Nat → ℚ) (ns : List GNode) :
    (applySim σ (seedNodes r ns)).map SimNode.id = ns.map GNode.id := by
  rw [applySim, seedNodes, applySimAux_ids, seedNodesAux_ids]

/-- Every entry of the layout result is the emitted point of some input node,
keyed by that node's id and placed at that node's ordinal. -/
theorem computeLayout_entry {g : ExplainTrace} {σ : SimOutcome} {r : Nat → ℚ}
    {k : String} {p : Point3D} (h : mapGet (computeLayout g σ r) k = some p) :
    ∃ ns j n, g.nodes = some ns ∧ ns[j]? = some n ∧ n.id = k ∧
      p = emitPoint { id := n.id, stage_id := n.stage_id,
                      x := (σ.coords j).1, y := (σ.coords j).2 } j := by
  unfold computeLayout at h
  split at h
  · exact absurd h (by simp [mapGet])
  · rename_i ns hg
    split at h
    · exact absurd h (by simp [mapGet])
    · have hmem := mapGet_some_mem h
      rcases mem_buildPositions _ _ _ hmem with h2 | ⟨j, sn, hj, hq⟩
      · simp at h2
      · rw [simList_getElem] at hj
        rcases Option.map_eq_some'.1 hj with ⟨n, hn, hsn⟩
        refine ⟨ns, j, n, hg, hn, ?_, ?_⟩
        · have := congrArg Prod.fst hq
          simp only at this
          rw [this, ← hsn]
        · have := congrArg Prod.snd hq
          simp only at this
          rw [this, ← hsn]
          simp

/-- The z component of the layout result for any id does not depend on the
simulation outcome or on the random seeds. -/
theorem buildPositions_z_eq :
    ∀ (l l' : List SimNode) (m m' : PosMap) (i : Nat),
      l.map SimNode.id = l'.map SimNode.id →
      (∀ k, (mapGet m k).map Point3D.z = (mapGet m' k).map Point3D.z) →
      ∀ k, (mapGet (buildPositions m i l) k).map Point3D.z =
        (mapGet (buildPositions m' i l') k).map Point3D.z := by
  intro l
  induction l with
  | nil =>
      intro l' m m' i hids hm k
      cases l' with
      | nil => exact hm k
      | cons sn rest => simp at hids
  | cons sn rest ih =>
      intro l' m m' i hids hm k
      cases l' with
      | nil => simp at hids
      | cons sn' rest' =>
          simp only [List.map_cons, List.cons.injEq] at hids
          rw [buildPositions, buildPositions]
          refine ih rest' _ _ (i + 1) hids.2 ?_ k
          intro k2
          by_cases hk : k2 = sn.id
          · rw [hk, mapGet_mapSet_self, hids.1, mapGet_mapSet_self]
            simp [emitPoint]
          · rw [mapGet_mapSet_ne _ _ hk, mapGet_mapSet_ne _ _ (hids.1 ▸ hk)]
            exact hm k2

/-- Clamp bounds. -/
theorem clamp_bounds (lo hi x : ℚ) (h : lo ≤ hi) :
    lo ≤ clamp lo hi x ∧ clamp lo hi x ≤ hi :=
  ⟨le_max_left _ _, max_le h (min_le_left _ _)⟩

/-! ## Claims -/

/-- C1: for every input graph, simulation outcome and random stream, every
position present in the layout result has finite coordinates (rationals by
construction of `Point3D`) with x and y clamped into [-50, 50]; moreover a
non-finite simulated coordinate is replaced by the finite fallback 0 before
emission. -/
theorem layout_coords_clamped (g : ExplainTrace) (σ : SimOutcome) (r : Nat → ℚ)
    (k : String) (p : Point3D) (h : mapGet (computeLayout g σ r) k = some p) :
    (-50 ≤ p.x ∧ p.x ≤ 50 ∧ -50 ≤ p.y ∧ p.y ≤ 50) ∧
    (∀ v : FVal, v.isFinite = false → emitXY v = 0) := by
  constructor
  · rcases computeLayout_entry h with ⟨ns, j, n, hg, hn, hk, hp⟩
    rw [hp]
    simp only [emitPoint, emitXY]
    have h1 := clamp_bounds (-50) 50 ((σ.coords j).1.orZero) (by norm_num)
    have h2 := clamp_bounds (-50) 50 ((σ.coords j).2.orZero) (by norm_num)
    exact ⟨h1.1, h1.2, h2.1, h2.2⟩
  · intro v hv
    cases v with
    | fin q => simp [FVal.isFinite] at hv
    | nan => norm_num [emitXY, FVal.orZero, clamp]
    | inf => norm_num [emitXY, FVal.orZero, clamp]
    | ninf => norm_num [emitXY, FVal.orZero, clamp]

/-- Witness for C1 at a concrete graph whose simulation produced only
non-finite coordinates: the emitted position is the clamped fallback. -/
theorem layout_coords_clamped_witness :
    (-50 ≤ (0 : ℚ) ∧ (0 : ℚ) ≤ 50 ∧ -50 ≤ (0 : ℚ) ∧ (0 : ℚ) ≤ 50) ∧
    (∀ v : FVal, v.isFinite = false → emitXY v = 0) :=
  layout_coords_clamped gEx simThrow rZero "a"
    { x := 0, y := 0, z := -(3 / 4) } (by
      simp [computeLayout, gEx, simThrow, rZero, seedNodes, seedNodesAux,
        applySim, applySimAux, buildPositions, mapSet, mapGet, emitPoint,
        emitXY, emitZ, pseudoRandomZ, FVal.orZero, clamp]
      norm_num)

/-- C4: when the node list is missing or empty, `computeLayout` returns the
empty mapping (and, being a total function, never signals an error). -/
theorem layout_empty_on_no_nodes (g : ExplainTrace) (σ : SimOutcome) (r : Nat → ℚ)
    (h : g.nodes = none ∨ g.nodes = some []) : computeLayout g σ r = [] := by
  rcases h with h | h <;> simp [computeLayout, h]

/-- Witness for C4 at a graph with a missing node list. -/
theorem layout_empty_on_no_nodes_witness :
    computeLayout gNoNodes simOk rZero = [] :=
  layout_empty_on_no_nodes gNoNodes simOk rZero (Or.inl rfl)

/-- C6: for a run started at `s` with the 1500 ms duration, the emitted
progress at `now` is `easeCubicOut(min((now - s)/1500, 1))`; it is 0 at
`now = s`, 1 at `now = s + 1500`, monotonically non-decreasing in `now`, and
no further frame is scheduled once the raw ratio reaches 1. -/
theorem animation_progress_spec (s : ℚ) :
    (∀ now, emittedProgress s now = easeCubicOut (min ((now - s) / 1500) 1)) ∧
    emittedProgress s s = 0 ∧
    emittedProgress s (s + 1500) = 1 ∧
    (∀ n1 n2, n1 ≤ n2 → emittedProgress s n1 ≤ emittedProgress s n2) ∧
    (∀ now, rawProgress s now = 1 → schedulesNext s now = false) := by
  refine ⟨fun now => rfl, ?_, ?_, ?_, ?_⟩
  · norm_num [emittedProgress, rawProgress, easeCubicOut]
  · norm_num [emittedProgress, rawProgress, easeCubicOut]
  · intro n1 n2 h
    unfold emittedProgress easeCubicOut
    have hm : rawProgress s n1 ≤ rawProgress s n2 := by
      unfold rawProgress
      exact min_le_min ((div_le_div_iff_of_pos_right (by norm_num)).2
        (by linarith)) le_rfl
    set a := rawProgress s n1
    set b := rawProgress s n2
    nlinarith [hm, sq_nonneg (a + b - 2), sq_nonneg (a - 1), sq_nonneg (b - 1),
      sq_nonneg (a - b)]
  · intro now h
    simp [schedulesNext, h]

/-- Witness for C6 at `s = 0`: endpoint values, a monotonicity instance and
the scheduling stop. -/
theorem animation_progress_spec_witness :
    emittedProgress 0 0 = 0 ∧ emittedProgress 0 1500 = 1 ∧
    emittedProgress 0 300 ≤ emittedProgress 0 600 ∧
    schedulesNext 0 1500 = false := by
  have h := animation_progress_spec 0
  exact ⟨h.2.1, by simpa using h.2.2.1, h.2.2.2.1 300 600 (by norm_num),
    h.2.2.2.2 1500 (by norm_num [rawProgress])⟩

/-- The `stageX` record assigns to the stage at ordinal `j` the lane target
of index `k + j`. -/
theorem stageXAssign_getElem :
    ∀ (stages : List Stage) (n k j : Nat),
      (stageXAssign n k stages)[j]? =
        (stages[j]?).map (fun s => (s.id, laneTarget n (k + j))) := by
  intro stages
  induction stages with
  | nil => intro n k j; simp [stageXAssign]
  | cons s rest ih =>
      intro n k j
      cases j with
      | zero => simp [stageXAssign]
      | succ j2 =>
          rw [stageXAssign]
          simp only [List.getElem?_cons_succ]
          rw [ih n (k + 1) j2]
          have h : k + 1 + j2 = k + (j2 + 1) := by omega
          rw [h]

/-- C2 counterexample: in a one-stage graph the single stage's lane target is
-3 (that is, -W/2 for W = 6), not 0 as claimed. -/
theorem single_stage_target_counterexample :
    stageXOf [{ id := "s1", label := "A" }] "s1" = -3 ∧ ((-3 : ℚ) ≠ 0) := by
  constructor
  · simp [stageXOf, stageXAssign, laneTarget, stageWidth, List.find?]
    norm_num
  · norm_num

/-- C2 (amended): the stage at index `i` of `n` stages receives lane target
`-W/2 + (i/(n-1))*W` when `n > 1`, and `-W/2` (not 0) when `n = 1`, with
`W = stageWidth = 6`. -/
theorem lane_target_spec (stages : List Stage) (i : Nat) (s : Stage)
    (hs : stages[i]? = some s) :
    (stageXAssign stages.length 0 stages)[i]? =
      some (s.id, laneTarget stages.length i) ∧
    (1 < stages.length →
      laneTarget stages.length i =
        -stageWidth / 2 + ((i : ℚ) / ((stages.length : ℚ) - 1)) * stageWidth) ∧
    (stages.length = 1 → laneTarget stages.length i = -stageWidth / 2) := by
  refine ⟨?_, ?_, ?_⟩
  · rw [stageXAssign_getElem, hs]
    simp
  · intro hn
    unfold laneTarget
    rw [if_neg (by omega : ¬ (stages.length - 1 = 0))]
    rw [Nat.cast_sub (by omega : 1 ≤ stages.length)]
    norm_num
  · intro hn
    have hlt : i < stages.length := by
      by_contra hge
      rw [List.getElem?_eq_none (by omega)] at hs
      cases hs
    have hi : i = 0 := by omega
    rw [hi, hn]
    norm_num [laneTarget, stageWidth]

/-- Witness for C2 (amended) on a two-stage list at index 1. -/
theorem lane_target_spec_witness :
    (stageXAssign 2 0 [{ id := "s1", label := "A" }, { id := "s2", label := "B" }])[1]? =
      some ("s2", laneTarget 2 1) ∧
    laneTarget 2 1 = -stageWidth / 2 + ((1 : ℚ) / ((2 : ℚ) - 1)) * stageWidth := by
  have h := lane_target_spec [{ id := "s1", label := "A" }, { id := "s2", label := "B" }]
    1 { id := "s2", label := "B" } rfl
  exact ⟨by simpa using h.1, by simpa using h.2.1 (by norm_num)⟩

/-- C3 counterexample: a run in which the simulation throws still emits a
non-empty layout (one clamped fallback position per node), not the empty
mapping the claim describes. -/
theorem solver_exception_result_counterexample :
    simThrow.threw = true ∧ computeLayout gEx simThrow rZero ≠ [] := by
  refine ⟨rfl, ?_⟩
  have heval : computeLayout gEx simThrow rZero =
      [("a", { x := 0, y := 0, z := -(3 / 4) }),
       ("b", { x := 0, y := 0, z := -(39 / 200) })] := by
    simp [computeLayout, gEx, simThrow, rZero, seedNodes, seedNodesAux,
      applySim, applySimAux, buildPositions, mapSet, emitPoint, emitXY,
      emitZ, pseudoRandomZ, FVal.orZero, clamp]
    norm_num
  rw [heval]
  simp

/-- C3 (amended): an internal simulation exception is caught and only logged;
the layout result is identical to the result of a non-throwing run that
reaches the same node state, and it still holds an entry for every input node
id (so it is non-empty, not empty, for non-empty input). -/
theorem layout_exception_keeps_nodes (g : ExplainTrace) (c : Nat → FVal × FVal)
    (r : Nat → ℚ) (ns : List GNode) (k : String) (hg : g.nodes = some ns)
    (hk : k ∈ nodeIdsOf ns) :
    computeLayout g { threw := true, coords := c } r =
      computeLayout g { threw := false, coords := c } r ∧
    (mapGet (computeLayout g { threw := true, coords := c } r) k).isSome = true := by
  constructor
  · rfl
  · have hne : ¬ ns.isEmpty := by
      intro he
      rw [List.isEmpty_iff] at he
      rw [he] at hk
      simp [nodeIdsOf] at hk
    have heq : computeLayout g { threw := true, coords := c } r =
        buildPositions [] 0 (applySim { threw := true, coords := c } (seedNodes r ns)) := by
      simp [computeLayout, hg, hne]
    rw [heq]
    refine mapGet_buildPositions_isSome _ _ _ (Or.inr ?_)
    rw [simList_ids]
    exact hk

/-- Witness for C3 (amended) at a concrete throwing run. -/
theorem layout_exception_keeps_nodes_witness :
    computeLayout gEx { threw := true, coords := fun _ => (FVal.nan, FVal.nan) } rZero =
      computeLayout gEx { threw := false, coords := fun _ => (FVal.nan, FVal.nan) } rZero ∧
    (mapGet (computeLayout gEx { threw := true, coords := fun _ => (FVal.nan, FVal.nan) } rZero)
      "a").isSome = true :=
  layout_exception_keeps_nodes gEx (fun _ => (FVal.nan, FVal.nan)) rZero
    (gEx.nodes.getD []) "a" rfl (by simp [gEx, nodeIdsOf])

/-- C5: an edge with a dangling endpoint id is excluded from the force model
(`d3Links`) and never appears in the renderable edge set. -/
theorem dangling_edges_dropped (g : ExplainTrace) (σ : SimOutcome) (r : Nat → ℚ)
    (ns : List GNode) (e : GEdge) (hg : g.nodes = some ns)
    (hd : e.source ∉ nodeIdsOf ns ∨ e.target ∉ nodeIdsOf ns) :
    ({ source := e.source, target := e.target, strength := e.strength } : D3Link)
        ∉ d3Links ns (edgesOf g) ∧
    e ∉ renderableEdges (edgesOf g) (computeLayout g σ r) := by
  constructor
  · intro hmem
    rw [d3Links, List.mem_map] at hmem
    rcases hmem with ⟨e2, he2, hproj⟩
    rw [List.mem_filter] at he2
    have hb := he2.2
    simp only [Bool.and_eq_true] at hb
    have hs2 : e2.source ∈ nodeIdsOf ns := by simpa using hb.1
    have ht2 : e2.target ∈ nodeIdsOf ns := by simpa using hb.2
    have hsrc : e2.source = e.source := congrArg D3Link.source hproj
    have htgt : e2.target = e.target := congrArg D3Link.target hproj
    rcases hd with hd | hd
    · exact hd (hsrc ▸ hs2)
    · exact hd (htgt ▸ ht2)
  · intro hmem
    rw [renderableEdges, List.mem_filter] at hmem
    have hpred := hmem.2
    cases hs : mapGet (computeLayout g σ r) e.source with
    | none => rw [hs] at hpred; simp at hpred
    | some ps =>
        cases ht : mapGet (computeLayout g σ r) e.target with
        | none => rw [hs, ht] at hpred; simp at hpred
        | some pt =>
            rcases computeLayout_entry hs with ⟨ns2, j, n, hg2, hn, hid, _⟩
            rcases computeLayout_entry ht with ⟨ns3, j3, n3, hg3, hn3, hid3, _⟩
            rw [hg] at hg2 hg3
            have he2 : ns2 = ns := (Option.some.inj hg2).symm
            have he3 : ns3 = ns := (Option.some.inj hg3).symm
            rw [he2] at hn
            rw [he3] at hn3
            rcases hd with hd | hd
            · refine hd ?_
              rw [nodeIdsOf, ← hid]
              exact List.mem_map_of_mem GNode.id (List.mem_iff_getElem?.2 ⟨j, hn⟩)
            · refine hd ?_
              rw [nodeIdsOf, ← hid3]
              exact List.mem_map_of_mem GNode.id (List.mem_iff_getElem?.2 ⟨j3, hn3⟩)

/-- Witness for C5 on the concrete dangling edge of `gEx`. -/
theorem dangling_edges_dropped_witness :
    ({ source := "a", target := "zzz", strength := FVal.fin 1 } : D3Link)
        ∉ d3Links (gEx.nodes.getD []) (edgesOf gEx) ∧
    ({ source := "a", target := "zzz", strength := FVal.fin 1 } : GEdge)
        ∉ renderableEdges (edgesOf gEx) (computeLayout gEx simOk rZero) :=
  dangling_edges_dropped gEx simOk rZero (gEx.nodes.getD [])
    { source := "a", target := "zzz", strength := FVal.fin 1 } rfl
    (Or.inr (by simp [gEx, nodeIdsOf]))

/-- C7: the z coordinate of every emitted position is
`(((ordinal * 1337) mod 100)/100 - 0.5) * 1.5` for the node's simulation
ordinal (its position in the node array), independent of the node's identity,
of the simulation outcome and of the random seeds; hence two runs over the
same ordered node list give the same z for the same id. -/
theorem layout_z_from_ordinal (g : ExplainTrace) (σ σ' : SimOutcome)
    (r r' : Nat → ℚ) (k : String) (p : Point3D)
    (h : mapGet (computeLayout g σ r) k = some p) :
    (∃ ns j n, g.nodes = some ns ∧ ns[j]? = some n ∧ n.id = k ∧
        p.z = ((((j * 1337) % 100 : Nat) : ℚ) / 100 - 1 / 2) * (3 / 2)) ∧
    (mapGet (computeLayout g σ' r') k).map Point3D.z = some p.z := by
  rcases computeLayout_entry h with ⟨ns, j, n, hg, hn, hk, hp⟩
  constructor
  · exact ⟨ns, j, n, hg, hn, hk, by
      rw [hp]; simp [emitPoint, emitZ, pseudoRandomZ]⟩
  · have hne : ¬ ns.isEmpty := by
      intro he
      rw [List.isEmpty_iff] at he
      rw [he] at hn
      simp at hn
    have e1 : computeLayout g σ r =
        buildPositions [] 0 (applySim σ (seedNodes r ns)) := by
      simp [computeLayout, hg, hne]
    have e2 : computeLayout g σ' r' =
        buildPositions [] 0 (applySim σ' (seedNodes r' ns)) := by
      simp [computeLayout, hg, hne]
    have hz := buildPositions_z_eq (applySim σ (seedNodes r ns))
      (applySim σ' (seedNodes r' ns)) [] [] 0
      (by rw [simList_ids, simList_ids]) (fun k2 => rfl) k
    rw [← e1, ← e2, h] at hz
    simpa using hz.symm

/-- Witness for C7: node "b" (ordinal 1) of `gEx` under a normal run, with
the second run using a different outcome and different seeds. -/
theorem layout_z_from_ordinal_witness :
    (∃ ns j n, gEx.nodes = some ns ∧ ns[j]? = some n ∧ n.id = "b" ∧
        (-(39 / 200) : ℚ) = ((((j * 1337) % 100 : Nat) : ℚ) / 100 - 1 / 2) * (3 / 2)) ∧
    (mapGet (computeLayout gEx simThrow rDistinct) "b").map Point3D.z =
      some (-(39 / 200) : ℚ) :=
  layout_z_from_ordinal gEx simOk simThrow rZero rDistinct "b"
    { x := 1, y := 1, z := -(39 / 200) } (by
      simp [computeLayout, gEx, simOk, rZero, seedNodes, seedNodesAux,
        applySim, applySimAux, buildPositions, mapSet, mapGet, emitPoint,
        emitXY, emitZ, pseudoRandomZ, FVal.orZero, clamp]
      norm_num)

/-- C8 counterexample: under the randomness outcome in which every
`Math.random()` call returns 0, the two distinct nodes of `gEx` receive
identical 2D seed states. -/
theorem seed_collision_counterexample :
    (gEx.nodes.getD [])[0]? ≠ (gEx.nodes.getD [])[1]? ∧
    ((seedNodes rZero (gEx.nodes.getD []))[0]?).map (fun sn => (sn.x, sn.y)) =
      ((seedNodes rZero (gEx.nodes.getD []))[1]?).map (fun sn => (sn.x, sn.y)) := by
  constructor
  · simp [gEx]
  · simp [gEx, seedNodes, seedNodesAux, rZero]

/-- C8 (amended): each node's seed is built from its own fresh pair of random
draws, so two nodes receive distinct seed states whenever their x draws
differ; the code does not rule out equal draws. -/
theorem seeds_distinct_of_draws_distinct (r : Nat → ℚ) (ns : List GNode)
    (i j : Nat) (hi : i < ns.length) (hj : j < ns.length)
    (hr : r (2 * i) ≠ r (2 * j)) :
    ((seedNodes r ns)[i]?).map (fun sn => (sn.x, sn.y)) ≠
      ((seedNodes r ns)[j]?).map (fun sn => (sn.x, sn.y)) := by
  rw [seedNodes, seedNodesAux_getElem, seedNodesAux_getElem,
    List.getElem?_eq_getElem hi, List.getElem?_eq_getElem hj]
  simp only [Option.map_some', Nat.zero_add]
  intro h
  apply hr
  have h2 := Option.some.inj h
  have hx := congrArg Prod.fst h2
  simp only at hx
  have hq : r (2 * i) * 10 - 5 = r (2 * j) * 10 - 5 := by
    injection hx
  linarith

/-- Witness for C8 (amended) on the two nodes of `gEx` with distinct draws. -/
theorem seeds_distinct_of_draws_distinct_witness :
    ((seedNodes rDistinct (gEx.nodes.getD []))[0]?).map (fun sn => (sn.x, sn.y)) ≠
      ((seedNodes rDistinct (gEx.nodes.getD []))[1]?).map (fun sn => (sn.x, sn.y)) :=
  seeds_distinct_of_draws_distinct rDistinct (gEx.nodes.getD []) 0 1
    (by simp [gEx]) (by simp [gEx]) (by norm_num [rDistinct])

/-- C9: a layout call leaves the input graph component of the state
unchanged (the simulation mutates only the working copies installed by the
shallow-copy steps), and its emitted map is the pure function
`computeLayout` of the input values — the output consists of freshly built
`Point3D` records sharing no structure with the input graph. -/
theorem runLayout_frame (w : SolverWorld) (σ : SimOutcome) (r : Nat → ℚ) :
    (runLayout w σ r).1.graph = w.graph ∧
    (runLayout w σ r).2 = computeLayout w.graph σ r := by
  cases hg : w.graph.nodes with
  | none => simp [runLayout, computeLayout, hg]
  | some ns =>
      by_cases he : ns.isEmpty <;>
        simp [runLayout, computeLayout, hg, he]

/-- C10: when the input node list holds several nodes with the same id, the
layout result has exactly one entry for that id, namely the emitted position
of the last node in the list with that id. -/
theorem layout_duplicate_ids_last_wins (g : ExplainTrace) (σ : SimOutcome)
    (r : Nat → ℚ) (ns : List GNode) (j : Nat) (n : GNode)
    (hg : g.nodes = some ns) (hj : ns[j]? = some n)
    (hlast : ∀ j2 n2, j < j2 → ns[j2]? = some n2 → n2.id ≠ n.id) :
    ((computeLayout g σ r).map Prod.fst).count n.id = 1 ∧
    mapGet (computeLayout g σ r) n.id =
      some (emitPoint { id := n.id, stage_id := n.stage_id,
                        x := (σ.coords j).1, y := (σ.coords j).2 } j) := by
  have hne : ¬ ns.isEmpty := by
    intro he
    rw [List.isEmpty_iff] at he
    rw [he] at hj
    simp at hj
  have e1 : computeLayout g σ r =
      buildPositions [] 0 (applySim σ (seedNodes r ns)) := by
    simp [computeLayout, hg, hne]
  have hsim : (applySim σ (seedNodes r ns))[j]? = some
      { id := n.id, stage_id := n.stage_id,
        x := (σ.coords j).1, y := (σ.coords j).2 } := by
    rw [simList_getElem, hj]
    rfl
  have hget : mapGet (buildPositions [] 0 (applySim σ (seedNodes r ns))) n.id =
      some (emitPoint { id := n.id, stage_id := n.stage_id,
                        x := (σ.coords j).1, y := (σ.coords j).2 } (0 + j)) := by
    refine mapGet_buildPositions_last _ _ _ _ _ hsim rfl ?_
    intro j2 sn2 hlt hg2
    rw [simList_getElem] at hg2
    rcases Option.map_eq_some'.1 hg2 with ⟨n2, hn2, hsn2⟩
    have hne2 := hlast j2 n2 hlt hn2
    intro hid
    apply hne2
    rw [← hsn2] at hid
    simpa using hid
  rw [Nat.zero_add] at hget
  constructor
  · have hnodup := nodupKeys_buildPositions (applySim σ (seedNodes r ns)) [] 0 (by simp)
    rw [e1]
    have hmem : n.id ∈ (buildPositions [] 0 (applySim σ (seedNodes r ns))).map Prod.fst :=
      List.mem_map_of_mem Prod.fst (mapGet_some_mem hget)
    exact List.count_eq_one_of_mem hnodup hmem
  · rw [e1, hget]

/-- Witness for C10 on `gDup`, whose id "a" occurs at ordinals 0 and 2. -/
theorem layout_duplicate_ids_last_wins_witness :
    ((computeLayout gDup simOk rZero).map Prod.fst).count "a" = 1 ∧
    mapGet (computeLayout gDup simOk rZero) "a" =
      some (emitPoint { id := "a", stage_id := "s1",
                        x := (simOk.coords 2).1, y := (simOk.coords 2).2 } 2) := by
  have h := layout_duplicate_ids_last_wins gDup simOk rZero (gDup.nodes.getD []) 2
    { id := "a", label := "last", stage_id := "s1" } rfl rfl ?_
  · exact h
  · intro j2 n2 hlt hg2
    have hlen : (gDup.nodes.getD []).length ≤ j2 := by
      simp [gDup]
      omega
    rw [List.getElem?_eq_none hlen] at hg2
    cases hg2
